import Mathlib

/-!
Verification development for the cog-goldcast plugin.

The TypeScript sources are shallowly embedded: JavaScript values become the
inductive `JSVal`; each handler's `executeStep` becomes a pure Lean function
parameterised over the external collaborators (the Resource Fetcher outcome
and the Operand Comparator, both of which live outside this repository);
JavaScript exceptions that escape a function are modelled with `Except`.
-/

namespace Goldcast

/-- A JavaScript value as it occurs in this program: step payloads (protobuf
structs converted with `toJavaScript()`) and JSON-parsed API bodies.
Numbers are modelled as integers (every number this program manipulates is an
integer id or step order; IEEE rounding of parsed literals is applied by the
JSON.parse model below). -/
inductive JSVal where
  | null
  | undefined
  | bool (b : Bool)
  | num (n : Int)
  | str (s : String)
  | obj (fields : List (String × JSVal))
  | arr (elems : List JSVal)

/-- JavaScript truthiness: `null`, `undefined`, `false`, `0` and `""` are
falsy; every object and array (even empty) is truthy. -/
def jsTruthy : JSVal → Bool
  | .null => false
  | .undefined => false
  | .bool b => b
  | .num n => n != 0
  | .str s => s != ""
  | .obj _ => true
  | .arr _ => true

/-- JavaScript strict equality `===` on the values this program compares.
Objects and arrays compare by reference; in this program the two sides of
every `===` are always separately constructed (step-payload scalars versus
freshly JSON-parsed entities), so distinct object values are never aliased
and reference equality is `false` for them. -/
def jsStrictEq : JSVal → JSVal → Bool
  | .null, .null => true
  | .undefined, .undefined => true
  | .bool a, .bool b => a == b
  | .num a, .num b => a == b
  | .str a, .str b => a == b
  | _, _ => false

/-- JavaScript loose equality `==` against a fixed non-numeric string literal
(the source compares `operator == 'be set'` and `operator == 'not be set'`).
For a string the comparison is string equality; numbers and booleans coerce
the string operand with `ToNumber`, which yields `NaN` for these literals, so
the result is `false`; `null`/`undefined` are loosely equal only to each
other. Object operands would go through `ToPrimitive`; no object ever reaches
this comparison in the program. -/
def jsLooseEqStr (v : JSVal) (s : String) : Bool :=
  match v with
  | .str t => t == s
  | _ => false

/-- Property read on a plain-object field list (`stepData.foo`): the first
binding wins, absent keys read as `undefined`. -/
def getProp (fields : List (String × JSVal)) (k : String) : JSVal :=
  match fields.find? (fun p => p.1 == k) with
  | some p => p.2
  | none => .undefined

/-- Left brace character, named to keep braces out of literals. -/
def lbrace : Char := Char.ofNat 123

/-- Right brace character, named to keep braces out of literals. -/
def rbrace : Char := Char.ofNat 125

mutual

/-- JavaScript `String(v)` coercion as used in template literals and in
`'member.' + stepOrder`: `undefined` renders as "undefined", numbers in
decimal, arrays join their coerced elements with commas, plain objects render
as "[object Object]". -/
def jsValToString : JSVal → String
  | .null => "null"
  | .undefined => "undefined"
  | .bool b => cond b "true" "false"
  | .num n => toString n
  | .str s => s
  | .obj _ => "[object Object]"
  | .arr l => String.intercalate "," (jsValToStringList l)

/-- Coerce each array element for `Array.prototype.toString`. -/
def jsValToStringList : List JSVal → List String
  | [] => []
  | v :: rest =>
    (match v with
      | .null => ""
      | .undefined => ""
      | w => jsValToString w) :: jsValToStringList rest

end

mutual

/-- `JSON.stringify` on a value: `undefined` produces no output (`none`),
strings are quoted (escape sequences are not modelled: no string this program
stringifies contains characters needing escapes), objects drop
`undefined`-valued keys. -/
def jsonStringifyVal : JSVal → Option String
  | .undefined => none
  | .null => some "null"
  | .bool b => some (cond b "true" "false")
  | .num n => some (toString n)
  | .str s => some ("\"" ++ s ++ "\"")
  | .arr l => some ("[" ++ String.intercalate "," (jsonStringifyArr l) ++ "]")
  | .obj fs => some ("\x7b" ++ String.intercalate "," (jsonStringifyFields fs) ++ "\x7d")

/-- Array elements: `undefined` entries stringify as "null". -/
def jsonStringifyArr : List JSVal → List String
  | [] => []
  | v :: rest => ((jsonStringifyVal v).getD "null") :: jsonStringifyArr rest

/-- Object members: `undefined`-valued keys are omitted. -/
def jsonStringifyFields : List (String × JSVal) → List String
  | [] => []
  | (k, v) :: rest =>
    match jsonStringifyVal v with
    | some s => ("\"" ++ k ++ "\":" ++ s) :: jsonStringifyFields rest
    | none => jsonStringifyFields rest

end

/-- `JSON.stringify({ key })` for the shorthand-object interpolations in the
handlers' catch blocks (`JSON.stringify({ memberId })`). -/
def jsonStringifyIdObj (key : String) (v : JSVal) : String :=
  match jsonStringifyVal v with
  | some s => "\x7b\"" ++ key ++ "\":" ++ s ++ "\x7d"
  | none => "\x7b\x7d"

/-- Member access `v[k]` on the values this program indexes (the guard
`data && data.hasOwnProperty(field)` precedes every use on possibly-null
values, so this total function is only consulted on non-null receivers).
Objects look the key up; arrays and strings expose `length` and canonical
numeric indices; other primitives have no own properties. -/
def jsIndex (v : JSVal) (k : String) : JSVal :=
  match v with
  | .obj fs => getProp fs k
  | .arr l =>
    if k == "length" then .num l.length
    else match k.toNat? with
      | some i => (l.get? i).getD .undefined
      | none => .undefined
  | .str s =>
    if k == "length" then .num s.length
    else match k.toNat? with
      | some i => (s.data.get? i).map (fun c => JSVal.str (String.mk [c])) |>.getD .undefined
      | none => .undefined
  | _ => .undefined

/-- `v.hasOwnProperty(k)` with primitive boxing: objects check their key
list, arrays and strings own `length` and their canonical index strings,
other primitives own nothing. -/
def jsHasOwn (v : JSVal) (k : String) : Bool :=
  match v with
  | .obj fs => fs.any (fun p => p.1 == k)
  | .arr l => k == "length" || (match k.toNat? with | some i => i < l.length | none => false)
  | .str s => k == "length" || (match k.toNat? with | some i => i < s.length | none => false)
  | _ => false

/-! ## JSON.parse model

The mixins parse raw response bodies with `JSON.parse` (axios is configured
with an identity `transformResponse`, so `response.data` is the raw body
string). `JSON.parse` represents every number as an IEEE-754 double: an
integer literal is rounded to the nearest value with at most 53 significant
bits (ties to even). The parser below covers the JSON forms this program
exchanges (null, booleans, integer literals, escape-free strings, arrays,
objects); fractional and exponent number forms and string escapes do not
occur in any input considered here and make the model parser fail. -/

/-- Fuel-indexed count of the binary digits of `m` beyond the 53-bit
significand: the number of halvings needed to bring `m` below `2^53`. -/
def excessBitsAux : Nat → Nat → Nat
  | 0, _ => 0
  | fuel + 1, m => if m < 2 ^ 53 then 0 else excessBitsAux fuel (m / 2) + 1

/-- Binary digits of `m` beyond 53 (`m` itself is ample fuel: each step at
least halves the argument). -/
def excessBits (m : Nat) : Nat := excessBitsAux m m

/-- Round a natural number to the nearest IEEE-754 double
(round-to-nearest, ties-to-even, 53-bit significand). Values below `2^53`
are exact; larger values are rounded to a multiple of `2^k` where `k` is
the number of binary digits beyond 53. -/
def roundNat53 (m : Nat) : Nat :=
  if m < 2 ^ 53 then m
  else
    let k := excessBits m
    let q := m / 2 ^ k
    let r := m % 2 ^ k
    let half := 2 ^ k / 2
    if r > half || (r == half && q % 2 == 1) then (q + 1) * 2 ^ k else q * 2 ^ k

/-- Round an integer to the nearest IEEE-754 double (sign-magnitude). -/
def roundDouble (i : Int) : Int :=
  if i < 0 then -(roundNat53 i.natAbs : Int) else (roundNat53 i.natAbs : Int)

/-- Skip JSON whitespace. -/
def skipWs : List Char → List Char
  | c :: rest =>
    if c == ' ' || c == '\n' || c == '\t' || c == '\r' then skipWs rest else c :: rest
  | [] => []

/-- Consume an expected literal tail (`ull` after `n`, etc.). -/
def dropLit : List Char → List Char → Option (List Char)
  | [], rest => some rest
  | c :: cs, d :: rest => if c == d then dropLit cs rest else none
  | _ :: _, [] => none

/-- Consume the characters of a string literal up to the closing quote.
An escape character makes the model parser fail (see the section note). -/
def scanStrChars : List Char → Option (String × List Char)
  | [] => none
  | c :: rest =>
    if c == '"' then some ("", rest)
    else if c == '\\' then none
    else match scanStrChars rest with
      | some (s, r) => some (String.mk (c :: s.data), r)
      | none => none

/-- Accumulate a run of decimal digits. -/
def scanDigits : List Char → Nat → Nat × List Char
  | c :: rest, acc =>
    if c.isDigit then scanDigits rest (acc * 10 + (c.toNat - 48)) else (acc, c :: rest)
  | [], acc => (acc, [])

mutual

/-- Parse one JSON value (fuel-indexed recursion; the fuel passed at top
level exceeds the input length, so it never runs out on accepted inputs). -/
def parseVal : Nat → List Char → Option (Goldcast.JSVal × List Char)
  | 0, _ => none
  | fuel + 1, input =>
    match skipWs input with
    | [] => none
    | c :: rest =>
      if c == 'n' then (dropLit ['u', 'l', 'l'] rest).map (fun r => (.null, r))
      else if c == 't' then (dropLit ['r', 'u', 'e'] rest).map (fun r => (.bool true, r))
      else if c == 'f' then (dropLit ['a', 'l', 's', 'e'] rest).map (fun r => (.bool false, r))
      else if c == '"' then (scanStrChars rest).map (fun p => (.str p.1, p.2))
      else if c == '-' then
        match rest with
        | d :: _ =>
          if d.isDigit then
            let p := scanDigits rest 0
            match p.2 with
            | e :: _ => if e == '.' || e == 'e' || e == 'E' then none
                        else some (.num (Goldcast.roundDouble (-(p.1 : Int))), p.2)
            | [] => some (.num (Goldcast.roundDouble (-(p.1 : Int))), [])
          else none
        | [] => none
      else if c.isDigit then
        let p := scanDigits (c :: rest) 0
        match p.2 with
        | e :: _ => if e == '.' || e == 'e' || e == 'E' then none
                    else some (.num (Goldcast.roundDouble (p.1 : Int)), p.2)
        | [] => some (.num (Goldcast.roundDouble (p.1 : Int)), [])
      else if c == '[' then
        match skipWs rest with
        | ']' :: r => some (.arr [], r)
        | other => (parseElems fuel other).map (fun p => (.arr p.1, p.2))
      else if c == Goldcast.lbrace then
        match skipWs rest with
        | d :: r => if d == Goldcast.rbrace then some (.obj [], r)
                    else (parseFields fuel (d :: r)).map (fun p => (.obj p.1, p.2))
        | [] => none
      else none

/-- Parse the comma-separated elements of a non-empty array, consuming the
closing bracket. -/
def parseElems : Nat → List Char → Option (List Goldcast.JSVal × List Char)
  | 0, _ => none
  | fuel + 1, input =>
    match parseVal fuel input with
    | some (v, rest) =>
      match skipWs rest with
      | ',' :: r => (parseElems fuel r).map (fun p => (v :: p.1, p.2))
      | ']' :: r => some ([v], r)
      | _ => none
    | none => none

/-- Parse the comma-separated members of a non-empty object, consuming the
closing brace. -/
def parseFields : Nat → List Char → Option (List (String × Goldcast.JSVal) × List Char)
  | 0, _ => none
  | fuel + 1, input =>
    match skipWs input with
    | '"' :: rest =>
      match scanStrChars rest with
      | some (k, r1) =>
        match skipWs r1 with
        | ':' :: r2 =>
          match parseVal fuel r2 with
          | some (v, r3) =>
            match skipWs r3 with
            | ',' :: r4 => (parseFields fuel r4).map (fun p => ((k, v) :: p.1, p.2))
            | e :: r4 => if e == Goldcast.rbrace then some ([(k, v)], r4) else none
            | [] => none
          | none => none
        | _ => none
      | none => none
    | _ => none

end

/-- `JSON.parse(s)`: parse one value surrounded by optional whitespace;
anything else raises a `SyntaxError` (the `Except.error` case). -/
def jsonParse (s : String) : Except String Goldcast.JSVal :=
  match parseVal (s.length + 1) s.data with
  | some (v, rest) =>
    if skipWs rest == [] then .ok v else .error "Unexpected token in JSON"
  | none => .error "Unexpected token in JSON"

/-! ## Response envelope and record builders

`src/core/base-step` is not among the sources; only its call sites are.
Its outcome/record helpers are modelled from the spec. -/

/-- Outcome enum of the RPC contract: PASSED, FAILED or ERROR. -/
inductive Outcome where
  | passed
  | failed
  | error

/-- A key-value StepRecord instance: an id, a human-readable name and the
entity snapshot it wraps. -/
structure StepRecord where
  id : String
  name : String
  keyValueData : JSVal

/-- The RunStepResponse envelope: outcome, printf-style message format,
substitution arguments, and attached records. -/
structure RunStepResponse where
  outcome : Outcome
  messageFormat : String
  messageArgs : List JSVal
  records : List StepRecord

/-- Modelled from the spec: `BaseStep.pass` of src/core/base-step (not under
src/) builds the PASSED envelope from a message format, its arguments and
the records. -/
def passResp (messageFormat : String) (messageArgs : List JSVal)
    (records : List StepRecord) : RunStepResponse :=
  { outcome := .passed, messageFormat := messageFormat,
    messageArgs := messageArgs, records := records }

/-- Modelled from the spec: `BaseStep.fail` of src/core/base-step (not under
src/) builds the FAILED envelope. The source call sites omit the records
argument on the branches that attach none; those call sites pass `[]` here. -/
def failResp (messageFormat : String) (messageArgs : List JSVal)
    (records : List StepRecord) : RunStepResponse :=
  { outcome := .failed, messageFormat := messageFormat,
    messageArgs := messageArgs, records := records }

/-- Modelled from the spec: `BaseStep.error` of src/core/base-step (not under
src/) builds the ERROR envelope; it attaches no records. -/
def errorResp (messageFormat : String) (messageArgs : List JSVal) : RunStepResponse :=
  { outcome := .error, messageFormat := messageFormat,
    messageArgs := messageArgs, records := [] }

/-- Modelled from the spec: `BaseStep.keyValue` of src/core/base-step (not
under src/) wraps an entity snapshot as a key-value StepRecord. -/
def keyValue (id name : String) (data : JSVal) : StepRecord :=
  { id := id, name := name, keyValueData := data }

/-- Modelled from the spec: the fixed operator set exported by
src/client/constants/operators (not under src/); the spec (section 4.1)
fixes this exact set. -/
def baseOperators : List String :=
  ["be", "not be", "contain", "not contain", "be greater than", "be less than",
   "be set", "not be set", "be one of", "not be one of", "match", "not match"]

/-! ## External collaborator models -/

/-- Result of one call to the Operand Comparator (`this.assert`, delegating
to the external `@run-crank/utilities` package): a ComparisonResult
`{valid, message}`, or one of the two error classes it can throw. -/
inductive AssertResult where
  | result (valid : Bool) (message : String)
  | unknownOperator (message : String)
  | invalidOperand (message : String)

/-- The Operand Comparator as the handlers consume it: a function of the
operator, the actual value, the expected value, the field name and the PII
suppression level (the five arguments of `this.assert`). It lives outside
this repository, so the handlers are parameterised over it. -/
def Comparator : Type :=
  JSVal → JSVal → JSVal → JSVal → JSVal → AssertResult

/-- The `response` carried by an HTTP error: a status code and the raw body
string (axios is configured with an identity transform, so `data` is the raw
body text). -/
structure ErrResponse where
  status : Int
  data : String

/-- A JavaScript error value as the catch blocks inspect it: a message and
an optional HTTP response. The two comparator error classes are delivered
through `AssertResult` instead, since only `this.assert` throws them. -/
structure JsErr where
  message : String
  response : Option ErrResponse

/-- Behaviour of one Resource Fetcher call: the promise resolves with a
value or rejects with an error. -/
inductive FetchOutcome where
  | resolves (v : JSVal)
  | rejects (e : JsErr)

/-- Checked member access `v[k]`: on `null` or `undefined` receivers
JavaScript throws a TypeError; on anything else it reads the property. Used
where the source indexes values that are not guarded by a truthiness check
(the elements of the fetched collection inside `.filter`). -/
def jsIndexChecked (v : JSVal) (k : String) : Except JsErr JSVal :=
  match v with
  | .null => .error { message := "Cannot read properties of null (reading '" ++ k ++ "')", response := none }
  | .undefined => .error { message := "Cannot read properties of undefined (reading '" ++ k ++ "')", response := none }
  | w => .ok (jsIndex w k)

/-- The shared short-circuit guard of both handlers (source line
`if ((expectedValue === null || expectedValue === undefined) && !(operator == 'be set' || operator == 'not be set'))`). -/
def presenceViolation (expectedValue operator : JSVal) : Bool :=
  (jsStrictEq expectedValue .null || jsStrictEq expectedValue .undefined)
    && !(jsLooseEqStr operator "be set" || jsLooseEqStr operator "not be set")

/-- The operator value EventMemberFieldEqualsStep extracts: `stepData.operator`
with no default applied. -/
def memberOperatorOf (stepData : List (String × JSVal)) : JSVal :=
  getProp stepData "operator"

/-- The operator value EventFieldEqualsStep extracts:
`stepData.operator || 'be'` (the default applies whenever the stored value is
falsy, in particular when the key is absent). -/
def eventOperatorOf (stepData : List (String × JSVal)) : JSVal :=
  if jsTruthy (getProp stepData "operator") then getProp stepData "operator" else .str "be"

/-! ## EventMemberFieldEqualsStep (src/steps/event/event-member-field-equals.ts) -/

/-- JavaScript default-parameter semantics: the declared default applies
exactly when the passed argument is `undefined`. -/
def jsDefaultArg (arg dflt : JSVal) : JSVal :=
  match arg with
  | .undefined => dflt
  | v => v

/-- `EventMemberFieldEqualsStep.createRecords(member, stepOrder = 1)`: two
key-value records wrapping the same snapshot, the second with the step order
appended to the id. The call site passes `stepData['__stepOrder']`. -/
def memberCreateRecords (member : JSVal) (stepOrderArg : JSVal) : List StepRecord :=
  let stepOrder := jsDefaultArg stepOrderArg (.num 1)
  [keyValue "member" "Checked Member" member,
   keyValue ("member." ++ jsValToString stepOrder)
     ("Checked Event Member from Step " ++ jsValToString stepOrder) member]

/-- The catch block of `EventMemberFieldEqualsStep.executeStep` applied to a
rejected fetch. The two `instanceof` branches for the comparator's error
classes cannot match a fetch rejection and are handled at the `assert` call
site instead. On a 404 the source runs
`JSON.parse(e.response.data).description` unguarded: a body that fails to
parse raises a SyntaxError, and a body parsing to `null` raises a TypeError;
either escapes `executeStep` (the `Except.error` results below). -/
def memberCatch (memberId : JSVal) (e : JsErr) : Except JsErr RunStepResponse :=
  let generic : Except JsErr RunStepResponse :=
    .ok (errorResp "There was an error during validation of member field: %s" [.str e.message])
  match e.response with
  | some resp =>
    if resp.status == 404 then
      match jsonParse resp.data with
      | .error msg => .error { message := msg, response := none }
      | .ok .null =>
        .error { message := "Cannot read properties of null (reading 'description')",
                 response := none }
      | .ok v =>
        .ok (errorResp (jsValToString (jsIndex v "description") ++ ": %s")
          [.str (jsonStringifyIdObj "memberId" memberId)])
    else generic
  | none => generic

/-- `EventMemberFieldEqualsStep.executeStep`, parameterised over the outcome
of the single `this.client.getEventMembers(memberId)` call and over the
Operand Comparator. A value result is the well-formed response envelope the
dispatcher receives; an `Except.error` is an exception escaping
`executeStep`. Note the extracted operator is `stepData.operator` with no
default. -/
def memberExecuteStep (stepData : List (String × JSVal)) (fetch : FetchOutcome)
    (cmp : Comparator) : Except JsErr RunStepResponse :=
  let expectedValue := getProp stepData "expectation"
  let memberId := getProp stepData "memberId"
  let operator := memberOperatorOf stepData
  let field := getProp stepData "field"
  if presenceViolation expectedValue operator then
    .ok (errorResp "The operator '%s' requires an expected value. Please provide one." [operator])
  else
    match fetch with
    | .rejects e => memberCatch memberId e
    | .resolves data =>
      let records := memberCreateRecords data (getProp stepData "__stepOrder")
      let fieldKey := jsValToString field
      if jsTruthy data && jsHasOwn data fieldKey then
        match cmp operator (jsIndex data fieldKey) expectedValue field
            (getProp stepData "__piiSuppressionLevel") with
        | .result valid message =>
          .ok (if valid then passResp message [] records else failResp message [] records)
        | .unknownOperator msg =>
          .ok (errorResp "%s Please provide one of: %s"
            [.str msg, .str (String.intercalate ", " baseOperators)])
        | .invalidOperand msg => .ok (errorResp msg [])
      else
        if jsTruthy data && !jsHasOwn data fieldKey then
          .ok (failResp "Found the member with event id %s, but there was no %s field."
            [memberId, field] records)
        else
          .ok (failResp "Couldn't find a member associated with event id %s" [memberId] [])

/-! ## EventFieldEqualsStep (same source file) -/

/-- `EventFieldEqualsStep.createRecords(event, stepOrder = 1)`. -/
def eventCreateRecords (event : JSVal) (stepOrderArg : JSVal) : List StepRecord :=
  let stepOrder := jsDefaultArg stepOrderArg (.num 1)
  [keyValue "event" "Checked Event" event,
   keyValue ("event." ++ jsValToString stepOrder)
     ("Checked Event from Step " ++ jsValToString stepOrder) event]

/-- The catch block of `EventFieldEqualsStep.executeStep`; identical to the
member handler's catch up to the interpolated id key and the generic
message. -/
def eventCatch (eventId : JSVal) (e : JsErr) : Except JsErr RunStepResponse :=
  let generic : Except JsErr RunStepResponse :=
    .ok (errorResp "There was an error while validating this event field: %s" [.str e.message])
  match e.response with
  | some resp =>
    if resp.status == 404 then
      match jsonParse resp.data with
      | .error msg => .error { message := msg, response := none }
      | .ok .null =>
        .error { message := "Cannot read properties of null (reading 'description')",
                 response := none }
      | .ok v =>
        .ok (errorResp (jsValToString (jsIndex v "description") ++ ": %s")
          [.str (jsonStringifyIdObj "eventId" eventId)])
    else generic
  | none => generic

/-- `data.filter((d: any) => d.id === eventId)`: the predicate runs left to
right; reading `.id` off a `null` or `undefined` element throws, aborting the
filter with that exception. -/
def filterById (elems : List JSVal) (eventId : JSVal) : Except JsErr (List JSVal) :=
  match elems with
  | [] => .ok []
  | d :: rest =>
    match jsIndexChecked d "id" with
    | .error e => .error e
    | .ok idv =>
      match filterById rest eventId with
      | .error e => .error e
      | .ok tail => .ok (if jsStrictEq idv eventId then d :: tail else tail)

/-- `EventFieldEqualsStep.executeStep`, parameterised over the outcome of the
single `this.client.getEvents()` call and over the Operand Comparator. The
source guards `!matchingRecords.length` first, then
`matchingRecords.length > 1`, then takes `matchingRecords[0]`; the three-way
match below is that same case split. `data.filter` on a non-array value
throws a TypeError that the handler's own catch block converts to the
generic ERROR. The extracted operator is `stepData.operator || 'be'`. -/
def eventExecuteStep (stepData : List (String × JSVal)) (fetch : FetchOutcome)
    (cmp : Comparator) : Except JsErr RunStepResponse :=
  let expectedValue := getProp stepData "expectation"
  let eventId := getProp stepData "eventId"
  let operator := eventOperatorOf stepData
  let field := getProp stepData "field"
  if presenceViolation expectedValue operator then
    .ok (errorResp "The operator '%s' requires an expected value. Please provide one." [operator])
  else
    match fetch with
    | .rejects e => eventCatch eventId e
    | .resolves data =>
      match data with
      | .arr elems =>
        match filterById elems eventId with
        | .error e => eventCatch eventId e
        | .ok [] => .ok (failResp "Couldn't find a event with id %s" [eventId] [])
        | .ok (event :: []) =>
          let records := eventCreateRecords event (getProp stepData "__stepOrder")
          let fieldKey := jsValToString field
          if jsTruthy event && jsHasOwn event fieldKey then
            match cmp operator (jsIndex event fieldKey) expectedValue field
                (getProp stepData "__piiSuppressionLevel") with
            | .result valid message =>
              .ok (if valid then passResp message [] records else failResp message [] records)
            | .unknownOperator msg =>
              .ok (errorResp "%s Please provide one of: %s"
                [.str msg, .str (String.intercalate ", " baseOperators)])
            | .invalidOperand msg => .ok (errorResp msg [])
          else
            if jsTruthy event && !jsHasOwn event fieldKey then
              .ok (failResp "Found the event with id %s, but there was no %s field."
                [eventId, field] records)
            else
              .ok (failResp "Couldn't find a event with id %s" [eventId] [])
        | .ok (_ :: _ :: _) =>
          .ok (failResp "Found more than one record with id %s" [eventId] [])
      | _ =>
        eventCatch eventId { message := "data.filter is not a function", response := none }

/-! ## EventAwareMixin (src/client/mixins) -/

/-- `EventAwareMixin.getEvents` (the variant that parses): axios is invoked
with an identity `transformResponse`, so `response.data` is the raw body
string, and the method returns `JSON.parse(response.data)`. The body string
is the parameter; an `Except.error` is the SyntaxError a malformed body
raises. -/
def mixinGetEvents (rawBody : String) : Except String JSVal :=
  jsonParse rawBody

/-! ## ClientWrapper (src/client/client-wrapper.ts) -/

/-- The axios defaults the constructor mutates. -/
structure ClientDefaults where
  baseURL : String
  authorizationHeader : String
  postContentType : String
  getContentType : String

/-- `ClientWrapper`'s constructor. `auth.get('token')` on grpc metadata
returns the array of values stored under the key; `.toString()` joins them
with commas (the empty array yields `""`). A falsy (empty) result throws
`Error('Personal Access Token was not provided.')`; otherwise the axios
defaults are configured, with the Authorization header set to
`Token ` followed by the token string. -/
def clientWrapperConstruct (tokenValues : List String) : Except String ClientDefaults :=
  let tokenStr := String.intercalate "," tokenValues
  if tokenStr != "" then
    .ok { baseURL := "https://customapi.goldcast.io/",
          authorizationHeader := "Token " ++ tokenStr,
          postContentType := "application/x-www-form-urlencoded",
          getContentType := "application/json" }
  else
    .error "Personal Access Token was not provided."

/-! ## CachingClientWrapper -/

/-- `cachePrefix` is the concatenation of the scenario, requestor and
connection ids of `idMap`. -/
def cachePfxOf (scenarioId requestorId connectionId : String) : String :=
  scenarioId ++ requestorId ++ connectionId

/-- Behaviour of one `redisClient.get` call: a stored raw string, a miss
(redis returns null), or a rejection. -/
inductive CacheGetOutcome where
  | found (raw : String)
  | missing
  | errs (message : String)

/-- `CachingClientWrapper.getCache(key)`: read the raw string from redis;
a truthy (non-empty) raw string is `JSON.parse`d and returned; a falsy one
returns `null`; any exception (redis failure or a JSON.parse throw) is
caught, logged, and the method returns `undefined`. -/
def getCacheModel (g : String → CacheGetOutcome) (key : String) : JSVal :=
  match g key with
  | .errs _ => .undefined
  | .missing => .null
  | .found raw =>
    if raw != "" then
      match jsonParse raw with
      | .ok v => v
      | .error _ => .undefined
    else .null

/-- Observable effects of one caching-wrapper lookup: the value returned to
the caller, whether the inner (non-caching) client method was invoked, and
the key/value pair written through `setCache` when a write happened. -/
structure CacheCallTrace where
  result : JSVal
  innerInvoked : Bool
  cacheWrite : Option (String × JSVal)

/-- Shared body of the three caching lookups (`getEvents`,
`getEventRegistrants`, `getEventMembers` differ only in the cache key and the
inner method): return a truthy cached value without touching the inner
client; otherwise call the inner client, write its result to the cache only
when that result is truthy, and return it unchanged. -/
def cachingLookup (cachekey : String) (g : String → CacheGetOutcome)
    (innerResult : JSVal) : CacheCallTrace :=
  let stored := getCacheModel g cachekey
  if jsTruthy stored then
    { result := stored, innerInvoked := false, cacheWrite := none }
  else
    { result := innerResult, innerInvoked := true,
      cacheWrite := if jsTruthy innerResult then some (cachekey, innerResult) else none }

/-- `CachingClientWrapper.getEvents()` with cache key
`` `Goldcast|Events|${this.cachePrefix}` ``. -/
def cachingGetEvents (cachePfx : String) (g : String → CacheGetOutcome)
    (innerResult : JSVal) : CacheCallTrace :=
  cachingLookup ("Goldcast|Events|" ++ cachePfx) g innerResult

/-- `CachingClientWrapper.getEventRegistrants(id)` with cache key
`` `Goldcast|EventRegistrants|${id}|${this.cachePrefix}` ``. -/
def cachingGetEventRegistrants (cachePfx id : String) (g : String → CacheGetOutcome)
    (innerResult : JSVal) : CacheCallTrace :=
  cachingLookup ("Goldcast|EventRegistrants|" ++ id ++ "|" ++ cachePfx) g innerResult

/-- `CachingClientWrapper.getEventMembers(id)` with cache key
`` `Goldcast|EventMembers|${id}|${this.cachePrefix}` ``. -/
def cachingGetEventMembers (cachePfx id : String) (g : String → CacheGetOutcome)
    (innerResult : JSVal) : CacheCallTrace :=
  cachingLookup ("Goldcast|EventMembers|" ++ id ++ "|" ++ cachePfx) g innerResult

/-! ## Shared helpers for the theorems -/

/-- A concrete comparator used to instantiate universally quantified
comparator arguments in witnesses: it always reports a valid comparison. -/
def trivialComparator : Comparator := fun _ _ _ _ _ => .result true ""

/-- The records attached to an execution result (none when the execution
threw). -/
def respRecords : Except JsErr RunStepResponse → List StepRecord
  | .ok r => r.records
  | .error _ => []

/-- The message format of an execution result (the error message when the
execution threw). -/
def respMessageFormat : Except JsErr RunStepResponse → String
  | .ok r => r.messageFormat
  | .error e => e.message

/-! ## Claims -/

/-- Claim C1: in both handlers, when the extracted expectation is null or
undefined and the operator is neither presence operator, `executeStep`
returns the ERROR envelope "The operator '%s' requires an expected value."
The conclusion holds for every fetch outcome `f` and comparator `cmp`, i.e.
the result does not depend on the Resource Fetcher at all — the guard
returns before the `try` block containing the `client.getEventMembers` /
`client.getEvents` call, so the fetcher is never invoked on that
execution. -/
theorem c1_missing_expectation_errors_before_fetch
    (d : List (String × JSVal)) (f : FetchOutcome) (cmp : Comparator)
    (hexp : (jsStrictEq (getProp d "expectation") .null
          || jsStrictEq (getProp d "expectation") .undefined) = true)
    (hopM : (jsLooseEqStr (memberOperatorOf d) "be set"
          || jsLooseEqStr (memberOperatorOf d) "not be set") = false)
    (hopE : (jsLooseEqStr (eventOperatorOf d) "be set"
          || jsLooseEqStr (eventOperatorOf d) "not be set") = false) :
    memberExecuteStep d f cmp
      = .ok (errorResp "The operator '%s' requires an expected value. Please provide one."
          [memberOperatorOf d])
    ∧ eventExecuteStep d f cmp
      = .ok (errorResp "The operator '%s' requires an expected value. Please provide one."
          [eventOperatorOf d]) := by
  have hm : presenceViolation (getProp d "expectation") (memberOperatorOf d) = true := by
    simp only [presenceViolation, hexp, hopM, Bool.true_and, Bool.not_false]
  have he : presenceViolation (getProp d "expectation") (eventOperatorOf d) = true := by
    simp only [presenceViolation, hexp, hopE, Bool.true_and, Bool.not_false]
  refine ⟨?_, ?_⟩
  · simp only [memberExecuteStep, hm, if_true]
  · simp only [eventExecuteStep, hm, he, if_true]

/-- Witness for C1: a payload whose operator is `be` and whose expectation
key is absent short-circuits to the ERROR envelope on both handlers, for a
fetch that would have resolved. -/
theorem c1_missing_expectation_errors_before_fetch_witness :
    memberExecuteStep [("operator", JSVal.str "be")] (.resolves (.obj [])) trivialComparator
      = .ok (errorResp "The operator '%s' requires an expected value. Please provide one."
          [memberOperatorOf [("operator", JSVal.str "be")]])
    ∧ eventExecuteStep [("operator", JSVal.str "be")] (.resolves (.obj [])) trivialComparator
      = .ok (errorResp "The operator '%s' requires an expected value. Please provide one."
          [eventOperatorOf [("operator", JSVal.str "be")]]) :=
  c1_missing_expectation_errors_before_fetch [("operator", JSVal.str "be")]
    (.resolves (.obj [])) trivialComparator rfl rfl rfl

/-- The step payload used to refute claim C2: `operator` is absent,
`expectation` is present. -/
def noOperatorPayload : List (String × JSVal) :=
  [("field", .str "f"), ("expectation", .str "x"), ("memberId", .num 1),
   ("eventId", .str "e1")]

/-- The entity resolved by the fetch in the C2 refutation. -/
def c2Entity : JSVal := .obj [("id", .str "e1"), ("f", .str "v")]

/-- A comparator that reports the string coercion of the operator it was
handed as its message, making the operator the handler uses observable in
the response envelope. -/
def operatorEchoComparator : Comparator :=
  fun op _ _ _ _ => .result true (jsValToString op)

/-- Counterexample to claim C2: with the `operator` key absent,
EventMemberFieldEqualsStep hands the comparator the raw `undefined`
operator (the echoed message is "undefined"), whereas running the same
payload with `operator` set to `"be"` echoes "be" — so the member handler
does not default the operator to `be`. (EventFieldEqualsStep does: it
echoes "be" for the same operator-less payload.) -/
theorem c2_counterexample :
    respMessageFormat (memberExecuteStep noOperatorPayload (.resolves c2Entity)
        operatorEchoComparator) = "undefined"
    ∧ respMessageFormat (memberExecuteStep (("operator", JSVal.str "be") :: noOperatorPayload)
        (.resolves c2Entity) operatorEchoComparator) = "be"
    ∧ respMessageFormat (eventExecuteStep noOperatorPayload (.resolves (.arr [c2Entity]))
        operatorEchoComparator) = "be"
    ∧ "undefined" ≠ "be" := by
  refine ⟨rfl, rfl, rfl, by decide⟩

/-- Claim C2 as amended: only EventFieldEqualsStep defaults an absent
operator to `"be"` (`stepData.operator || 'be'`); EventMemberFieldEqualsStep
applies no default and uses the absent operator as `undefined`, both in the
expectation-presence check and as the value passed to the comparator. These
are exactly the operator values `eventExecuteStep` and `memberExecuteStep`
extract. -/
theorem c2_amended_operator_default
    (d : List (String × JSVal)) (h : getProp d "operator" = .undefined) :
    eventOperatorOf d = .str "be" ∧ memberOperatorOf d = .undefined := by
  refine ⟨?_, h⟩
  simp only [eventOperatorOf, h]
  rfl

/-- Witness for the amended C2 at a concrete operator-less payload. -/
theorem c2_amended_operator_default_witness :
    eventOperatorOf noOperatorPayload = .str "be"
    ∧ memberOperatorOf noOperatorPayload = .undefined :=
  c2_amended_operator_default noOperatorPayload rfl

/-- Claim C10: when the payload has no `__stepOrder` key, the argument both
handlers pass to `createRecords` is `undefined`, the JavaScript default 1
applies, and the ordered record ids are `member.1` and `event.1`. -/
theorem c10_default_step_order
    (d : List (String × JSVal)) (m e : JSVal)
    (h : getProp d "__stepOrder" = .undefined) :
    (memberCreateRecords m (getProp d "__stepOrder")).map (fun r => r.id)
      = ["member", "member.1"]
    ∧ (eventCreateRecords e (getProp d "__stepOrder")).map (fun r => r.id)
      = ["event", "event.1"] := by
  rw [h]
  exact ⟨rfl, rfl⟩

/-- Witness for C10 at the empty payload. -/
theorem c10_default_step_order_witness :
    (memberCreateRecords (.obj []) (getProp [] "__stepOrder")).map (fun r => r.id)
      = ["member", "member.1"]
    ∧ (eventCreateRecords (.obj []) (getProp [] "__stepOrder")).map (fun r => r.id)
      = ["event", "event.1"] :=
  c10_default_step_order [] (.obj []) (.obj []) rfl

/-- Helper: filtering a one-element collection whose element is truthy (so
not `null`/`undefined`) and whose id matches keeps exactly that element. -/
theorem filterById_singleton_match (entity eventId : JSVal)
    (htr : jsTruthy entity = true)
    (hid : jsStrictEq (jsIndex entity "id") eventId = true) :
    filterById [entity] eventId = .ok [entity] := by
  cases entity <;>
    simp_all [filterById, jsIndexChecked, jsTruthy]

/-- Claim C3: in EventFieldEqualsStep, once the fetched list has been
filtered by id, zero matches produce the FAILED "couldn't find" envelope and
two or more matches produce the FAILED "more than one record" envelope — in
both cases outcome FAILED (`failResp`), never ERROR. The hypotheses say the
expectation guard passed and the filter ran without throwing (its elements
are entities, not `null`/`undefined`). -/
theorem c3_zero_or_multiple_matches_fail
    (d : List (String × JSVal)) (cmp : Comparator) (elems matching : List JSVal)
    (hpv : presenceViolation (getProp d "expectation") (eventOperatorOf d) = false)
    (hflt : filterById elems (getProp d "eventId") = .ok matching) :
    (matching = [] →
      eventExecuteStep d (.resolves (.arr elems)) cmp
        = .ok (failResp "Couldn't find a event with id %s" [getProp d "eventId"] []))
    ∧ (1 < matching.length →
      eventExecuteStep d (.resolves (.arr elems)) cmp
        = .ok (failResp "Found more than one record with id %s" [getProp d "eventId"] [])) := by
  constructor
  · intro hnil
    subst hnil
    simp [eventExecuteStep, hpv, hflt]
  · intro hlen
    cases matching with
    | nil => simp at hlen
    | cons a t =>
      cases t with
      | nil => simp at hlen
      | cons b t2 => simp [eventExecuteStep, hpv, hflt]

/-- Witness for C3: a matching pair of concrete runs — an empty collection
fails with "couldn't find", and a collection holding the same entity twice
fails with "more than one record". -/
theorem c3_zero_or_multiple_matches_fail_witness :
    eventExecuteStep [("field", JSVal.str "f"), ("expectation", JSVal.str "x"),
        ("eventId", JSVal.str "e1"), ("operator", JSVal.str "be")]
      (.resolves (.arr [])) trivialComparator
      = .ok (failResp "Couldn't find a event with id %s"
          [getProp [("field", JSVal.str "f"), ("expectation", JSVal.str "x"),
            ("eventId", JSVal.str "e1"), ("operator", JSVal.str "be")] "eventId"] [])
    ∧ eventExecuteStep [("field", JSVal.str "f"), ("expectation", JSVal.str "x"),
        ("eventId", JSVal.str "e1"), ("operator", JSVal.str "be")]
      (.resolves (.arr [.obj [("id", .str "e1")], .obj [("id", .str "e1")]]))
      trivialComparator
      = .ok (failResp "Found more than one record with id %s"
          [getProp [("field", JSVal.str "f"), ("expectation", JSVal.str "x"),
            ("eventId", JSVal.str "e1"), ("operator", JSVal.str "be")] "eventId"] []) := by
  constructor
  · exact (c3_zero_or_multiple_matches_fail
      [("field", JSVal.str "f"), ("expectation", JSVal.str "x"),
        ("eventId", JSVal.str "e1"), ("operator", JSVal.str "be")]
      trivialComparator [] [] rfl rfl).1 rfl
  · exact (c3_zero_or_multiple_matches_fail
      [("field", JSVal.str "f"), ("expectation", JSVal.str "x"),
        ("eventId", JSVal.str "e1"), ("operator", JSVal.str "be")]
      trivialComparator
      [.obj [("id", .str "e1")], .obj [("id", .str "e1")]]
      [.obj [("id", .str "e1")], .obj [("id", .str "e1")]] rfl rfl).2 (by decide)

/-- Claim C4: when the resolved entity exists (is truthy) and owns the
requested field, both handlers call the comparator with the handler's
operator, the entity's field value, the expectation, the field name and the
PII level, and map a `valid:true` result to PASSED and `valid:false` to
FAILED, carrying the comparator's message and the built records. -/
theorem c4_comparator_verdict_maps_to_outcome
    (d : List (String × JSVal)) (cmp : Comparator) (entity : JSVal)
    (vM vE : Bool) (mM mE : String)
    (hpvM : presenceViolation (getProp d "expectation") (memberOperatorOf d) = false)
    (hpvE : presenceViolation (getProp d "expectation") (eventOperatorOf d) = false)
    (htr : jsTruthy entity = true)
    (hho : jsHasOwn entity (jsValToString (getProp d "field")) = true)
    (hid : jsStrictEq (jsIndex entity "id") (getProp d "eventId") = true)
    (hcmpM : cmp (memberOperatorOf d) (jsIndex entity (jsValToString (getProp d "field")))
        (getProp d "expectation") (getProp d "field") (getProp d "__piiSuppressionLevel")
        = .result vM mM)
    (hcmpE : cmp (eventOperatorOf d) (jsIndex entity (jsValToString (getProp d "field")))
        (getProp d "expectation") (getProp d "field") (getProp d "__piiSuppressionLevel")
        = .result vE mE) :
    memberExecuteStep d (.resolves entity) cmp
      = .ok (if vM then passResp mM [] (memberCreateRecords entity (getProp d "__stepOrder"))
             else failResp mM [] (memberCreateRecords entity (getProp d "__stepOrder")))
    ∧ eventExecuteStep d (.resolves (.arr [entity])) cmp
      = .ok (if vE then passResp mE [] (eventCreateRecords entity (getProp d "__stepOrder"))
             else failResp mE [] (eventCreateRecords entity (getProp d "__stepOrder"))) := by
  have hflt := filterById_singleton_match entity (getProp d "eventId") htr hid
  constructor
  · simp [memberExecuteStep, hpvM, htr, hho, hcmpM]
  · simp [eventExecuteStep, hpvE, hflt, htr, hho, hcmpE]

/-- Witness for C4: a concrete entity owning the requested field; the
trivial comparator reports valid, and both handlers answer PASSED with its
message and the records. -/
theorem c4_comparator_verdict_maps_to_outcome_witness :
    memberExecuteStep [("field", JSVal.str "someField"),
        ("expectation", JSVal.str "Expected Value"), ("eventId", JSVal.str "e1"),
        ("memberId", JSVal.num 12345), ("operator", JSVal.str "be")]
      (.resolves (.obj [("id", .str "e1"), ("someField", .str "Expected Value")]))
      trivialComparator
      = .ok (if true then passResp "" []
              (memberCreateRecords (.obj [("id", .str "e1"), ("someField", .str "Expected Value")])
                (getProp [("field", JSVal.str "someField"),
                  ("expectation", JSVal.str "Expected Value"), ("eventId", JSVal.str "e1"),
                  ("memberId", JSVal.num 12345), ("operator", JSVal.str "be")] "__stepOrder"))
             else failResp "" []
              (memberCreateRecords (.obj [("id", .str "e1"), ("someField", .str "Expected Value")])
                (getProp [("field", JSVal.str "someField"),
                  ("expectation", JSVal.str "Expected Value"), ("eventId", JSVal.str "e1"),
                  ("memberId", JSVal.num 12345), ("operator", JSVal.str "be")] "__stepOrder")))
    ∧ eventExecuteStep [("field", JSVal.str "someField"),
        ("expectation", JSVal.str "Expected Value"), ("eventId", JSVal.str "e1"),
        ("memberId", JSVal.num 12345), ("operator", JSVal.str "be")]
      (.resolves (.arr [.obj [("id", .str "e1"), ("someField", .str "Expected Value")]]))
      trivialComparator
      = .ok (if true then passResp "" []
              (eventCreateRecords (.obj [("id", .str "e1"), ("someField", .str "Expected Value")])
                (getProp [("field", JSVal.str "someField"),
                  ("expectation", JSVal.str "Expected Value"), ("eventId", JSVal.str "e1"),
                  ("memberId", JSVal.num 12345), ("operator", JSVal.str "be")] "__stepOrder"))
             else failResp "" []
              (eventCreateRecords (.obj [("id", .str "e1"), ("someField", .str "Expected Value")])
                (getProp [("field", JSVal.str "someField"),
                  ("expectation", JSVal.str "Expected Value"), ("eventId", JSVal.str "e1"),
                  ("memberId", JSVal.num 12345), ("operator", JSVal.str "be")] "__stepOrder"))) :=
  c4_comparator_verdict_maps_to_outcome _ trivialComparator _ true true "" ""
    rfl rfl rfl rfl rfl rfl rfl

/-- Claim C5: for every resolved entity, `createRecords` builds exactly two
key-value records wrapping the same snapshot — ids `member`/`event` and that
id suffixed with the (defaulted) step order — and those records are attached
to the response both when the comparison runs (whatever its verdict) and on
the field-missing FAILED outcome. -/
theorem c5_records_shape_and_attachment
    (d : List (String × JSVal)) (cmp : Comparator) (entity : JSVal)
    (v : Bool) (msg : String)
    (hpvM : presenceViolation (getProp d "expectation") (memberOperatorOf d) = false)
    (hpvE : presenceViolation (getProp d "expectation") (eventOperatorOf d) = false)
    (htr : jsTruthy entity = true)
    (hid : jsStrictEq (jsIndex entity "id") (getProp d "eventId") = true) :
    (memberCreateRecords entity (getProp d "__stepOrder")).map (fun r => r.id)
      = ["member", "member." ++ jsValToString (jsDefaultArg (getProp d "__stepOrder") (.num 1))]
    ∧ (memberCreateRecords entity (getProp d "__stepOrder")).map (fun r => r.keyValueData)
      = [entity, entity]
    ∧ (eventCreateRecords entity (getProp d "__stepOrder")).map (fun r => r.id)
      = ["event", "event." ++ jsValToString (jsDefaultArg (getProp d "__stepOrder") (.num 1))]
    ∧ (eventCreateRecords entity (getProp d "__stepOrder")).map (fun r => r.keyValueData)
      = [entity, entity]
    ∧ (cmp (memberOperatorOf d) (jsIndex entity (jsValToString (getProp d "field")))
          (getProp d "expectation") (getProp d "field") (getProp d "__piiSuppressionLevel")
          = .result v msg →
        jsHasOwn entity (jsValToString (getProp d "field")) = true →
        respRecords (memberExecuteStep d (.resolves entity) cmp)
          = memberCreateRecords entity (getProp d "__stepOrder"))
    ∧ (cmp (eventOperatorOf d) (jsIndex entity (jsValToString (getProp d "field")))
          (getProp d "expectation") (getProp d "field") (getProp d "__piiSuppressionLevel")
          = .result v msg →
        jsHasOwn entity (jsValToString (getProp d "field")) = true →
        respRecords (eventExecuteStep d (.resolves (.arr [entity])) cmp)
          = eventCreateRecords entity (getProp d "__stepOrder"))
    ∧ (jsHasOwn entity (jsValToString (getProp d "field")) = false →
        memberExecuteStep d (.resolves entity) cmp
          = .ok (failResp "Found the member with event id %s, but there was no %s field."
              [getProp d "memberId", getProp d "field"]
              (memberCreateRecords entity (getProp d "__stepOrder"))))
    ∧ (jsHasOwn entity (jsValToString (getProp d "field")) = false →
        eventExecuteStep d (.resolves (.arr [entity])) cmp
          = .ok (failResp "Found the event with id %s, but there was no %s field."
              [getProp d "eventId", getProp d "field"]
              (eventCreateRecords entity (getProp d "__stepOrder")))) := by
  have hflt := filterById_singleton_match entity (getProp d "eventId") htr hid
  refine ⟨rfl, rfl, rfl, rfl, ?_, ?_, ?_, ?_⟩
  · intro hcmp hho
    cases v <;> simp [memberExecuteStep, hpvM, htr, hho, hcmp, respRecords, passResp, failResp]
  · intro hcmp hho
    cases v <;> simp [eventExecuteStep, hpvE, hflt, htr, hho, hcmp, respRecords, passResp, failResp]
  · intro hho
    simp [memberExecuteStep, hpvM, htr, hho]
  · intro hho
    simp [eventExecuteStep, hpvE, hflt, htr, hho]

/-- Witness for C5: a concrete entity lacking the requested field; the
field-missing FAILED responses of both handlers carry the two records, and
the record shape facts hold. -/
theorem c5_records_shape_and_attachment_witness :
    memberExecuteStep [("field", JSVal.str "someField"),
        ("expectation", JSVal.str "x"), ("eventId", JSVal.str "e1"),
        ("memberId", JSVal.num 7), ("operator", JSVal.str "be")]
      (.resolves (.obj [("id", .str "e1")])) trivialComparator
      = .ok (failResp "Found the member with event id %s, but there was no %s field."
          [getProp [("field", JSVal.str "someField"),
            ("expectation", JSVal.str "x"), ("eventId", JSVal.str "e1"),
            ("memberId", JSVal.num 7), ("operator", JSVal.str "be")] "memberId",
           getProp [("field", JSVal.str "someField"),
            ("expectation", JSVal.str "x"), ("eventId", JSVal.str "e1"),
            ("memberId", JSVal.num 7), ("operator", JSVal.str "be")] "field"]
          (memberCreateRecords (.obj [("id", .str "e1")])
            (getProp [("field", JSVal.str "someField"),
              ("expectation", JSVal.str "x"), ("eventId", JSVal.str "e1"),
              ("memberId", JSVal.num 7), ("operator", JSVal.str "be")] "__stepOrder")))
    ∧ (memberCreateRecords (.obj [("id", .str "e1")])
        (getProp [("field", JSVal.str "someField"),
          ("expectation", JSVal.str "x"), ("eventId", JSVal.str "e1"),
          ("memberId", JSVal.num 7), ("operator", JSVal.str "be")] "__stepOrder")).map
        (fun r => r.id)
      = ["member", "member." ++ jsValToString (jsDefaultArg
          (getProp [("field", JSVal.str "someField"),
            ("expectation", JSVal.str "x"), ("eventId", JSVal.str "e1"),
            ("memberId", JSVal.num 7), ("operator", JSVal.str "be")] "__stepOrder")
          (.num 1))] := by
  have h := c5_records_shape_and_attachment
    [("field", JSVal.str "someField"), ("expectation", JSVal.str "x"),
      ("eventId", JSVal.str "e1"), ("memberId", JSVal.num 7), ("operator", JSVal.str "be")]
    trivialComparator (.obj [("id", .str "e1")]) true "" rfl rfl rfl rfl
  exact ⟨h.2.2.2.2.2.2.1 rfl, h.1⟩

/-- Inputs refuting claim C6: a fetch rejection whose response has status
404 and a body that is not valid JSON. -/
def bad404Err : JsErr :=
  { message := "Request failed with status code 404",
    response := some { status := 404, data := "<html>not found</html>" } }

/-- True exactly when the execution escaped `executeStep` as an exception
instead of resolving to a response envelope. -/
def isUncaught : Except JsErr RunStepResponse → Bool
  | .error _ => true
  | .ok _ => false

/-- Claim C6 fails on the code: on a 404 rejection the catch block runs
`JSON.parse(e.response.data).description` unguarded, so a 404 whose body is
not valid JSON makes `JSON.parse` throw a SyntaxError inside the catch
block and `executeStep` rejects instead of resolving to an envelope — for
both handlers at this concrete input. -/
theorem c6_catch_block_can_throw :
    isUncaught (memberExecuteStep [("field", JSVal.str "f"),
        ("expectation", JSVal.str "x"), ("eventId", JSVal.str "e1"),
        ("memberId", JSVal.num 1), ("operator", JSVal.str "be")]
      (.rejects bad404Err) trivialComparator) = true
    ∧ isUncaught (eventExecuteStep [("field", JSVal.str "f"),
        ("expectation", JSVal.str "x"), ("eventId", JSVal.str "e1"),
        ("memberId", JSVal.num 1), ("operator", JSVal.str "be")]
      (.rejects bad404Err) trivialComparator) = true :=
  ⟨rfl, rfl⟩

/-- Counterexample to claim C7: the mixin returns
`JSON.parse(response.data)`, and `JSON.parse` represents numbers as IEEE-754
doubles, so the id `2^53 + 1 = 9007199254740993` of a fetched entity is
silently truncated to `2^53 = 9007199254740992` — the value available for
matching differs from the original identifier. -/
theorem c7_counterexample :
    mixinGetEvents "[\x7b\"id\":9007199254740993\x7d]"
      = .ok (.arr [.obj [("id", .num 9007199254740992)]])
    ∧ (9007199254740992 : Int) ≠ (9007199254740993 : Int) :=
  ⟨rfl, by decide⟩

/-- Claim C7 as amended: the number conversion `roundDouble` applied by the
JSON.parse model to every parsed integer literal preserves ids of magnitude
at most `2^53` exactly; beyond that bound ids are rounded to 53-bit
precision (see the counterexample), so full precision is not preserved in
general. -/
theorem c7_amended_precision_bound (i : Int) (h : i.natAbs ≤ 2 ^ 53) :
    roundDouble i = i := by
  have key : roundNat53 i.natAbs = i.natAbs := by
    rcases Nat.lt_or_ge i.natAbs (2 ^ 53) with hlt | hge
    · simp only [roundNat53]
      rw [if_pos hlt]
    · have heq : i.natAbs = 2 ^ 53 := le_antisymm h hge
      rw [heq]
      decide
  simp only [roundDouble, key]
  split <;> omega

/-- Witness for the amended C7 at the id 12345. -/
theorem c7_amended_precision_bound_witness : roundDouble 12345 = 12345 :=
  c7_amended_precision_bound 12345 (by decide)

/-- Claim C8: constructing the ClientWrapper with no `token` metadata entry,
or with an empty one, throws `Personal Access Token was not provided.`;
with a non-empty token it succeeds and sets the Authorization header to
`Token ` followed by the token. -/
theorem c8_client_construction (t : String) (ht : t ≠ "") :
    clientWrapperConstruct [] = .error "Personal Access Token was not provided."
    ∧ clientWrapperConstruct [""] = .error "Personal Access Token was not provided."
    ∧ clientWrapperConstruct [t]
      = .ok { baseURL := "https://customapi.goldcast.io/",
              authorizationHeader := "Token " ++ t,
              postContentType := "application/x-www-form-urlencoded",
              getContentType := "application/json" } := by
  have hb : (t != "") = true := bne_iff_ne.mpr ht
  refine ⟨rfl, rfl, ?_⟩
  simp only [clientWrapperConstruct]
  rw [show String.intercalate "," [t] = t from rfl, hb]
  rfl

/-- Witness for C8 at the token of the repository's own authentication
test. -/
theorem c8_client_construction_witness :
    clientWrapperConstruct [] = .error "Personal Access Token was not provided."
    ∧ clientWrapperConstruct [""] = .error "Personal Access Token was not provided."
    ∧ clientWrapperConstruct ["some-api-key"]
      = .ok { baseURL := "https://customapi.goldcast.io/",
              authorizationHeader := "Token " ++ "some-api-key",
              postContentType := "application/x-www-form-urlencoded",
              getContentType := "application/json" } :=
  c8_client_construction "some-api-key" (by decide)

/-- Claim C9: each caching lookup (`getEvents`, `getEventRegistrants`,
`getEventMembers`) returns a truthy cached value under its scoped key
without invoking the inner client; on a falsy cached value it invokes the
inner client, returns its result unchanged, and writes the result to the
cache exactly when that result is truthy. -/
theorem c9_caching_lookups (pfx id : String) (g : String → CacheGetOutcome)
    (inner : JSVal) :
    (jsTruthy (getCacheModel g ("Goldcast|Events|" ++ pfx)) = true →
      cachingGetEvents pfx g inner
        = { result := getCacheModel g ("Goldcast|Events|" ++ pfx),
            innerInvoked := false, cacheWrite := none })
    ∧ (jsTruthy (getCacheModel g ("Goldcast|Events|" ++ pfx)) = false →
      cachingGetEvents pfx g inner
        = { result := inner, innerInvoked := true,
            cacheWrite := if jsTruthy inner
              then some ("Goldcast|Events|" ++ pfx, inner) else none })
    ∧ (jsTruthy (getCacheModel g ("Goldcast|EventRegistrants|" ++ id ++ "|" ++ pfx)) = true →
      cachingGetEventRegistrants pfx id g inner
        = { result := getCacheModel g ("Goldcast|EventRegistrants|" ++ id ++ "|" ++ pfx),
            innerInvoked := false, cacheWrite := none })
    ∧ (jsTruthy (getCacheModel g ("Goldcast|EventRegistrants|" ++ id ++ "|" ++ pfx)) = false →
      cachingGetEventRegistrants pfx id g inner
        = { result := inner, innerInvoked := true,
            cacheWrite := if jsTruthy inner
              then some ("Goldcast|EventRegistrants|" ++ id ++ "|" ++ pfx, inner) else none })
    ∧ (jsTruthy (getCacheModel g ("Goldcast|EventMembers|" ++ id ++ "|" ++ pfx)) = true →
      cachingGetEventMembers pfx id g inner
        = { result := getCacheModel g ("Goldcast|EventMembers|" ++ id ++ "|" ++ pfx),
            innerInvoked := false, cacheWrite := none })
    ∧ (jsTruthy (getCacheModel g ("Goldcast|EventMembers|" ++ id ++ "|" ++ pfx)) = false →
      cachingGetEventMembers pfx id g inner
        = { result := inner, innerInvoked := true,
            cacheWrite := if jsTruthy inner
              then some ("Goldcast|EventMembers|" ++ id ++ "|" ++ pfx, inner) else none }) := by
  refine ⟨?_, ?_, ?_, ?_, ?_, ?_⟩ <;>
    · intro h
      simp [cachingGetEvents, cachingGetEventRegistrants, cachingGetEventMembers,
        cachingLookup, h]

/-- Witness for C9: with a redis stub holding a truthy stored list the
cached value is returned without a write; with an empty redis the inner
result comes back and, being truthy, is written under the scoped key. -/
theorem c9_caching_lookups_witness :
    cachingGetEvents "s1r1c1" (fun _ => CacheGetOutcome.found "[1]") (.obj [])
      = { result := getCacheModel (fun _ => CacheGetOutcome.found "[1]")
            ("Goldcast|Events|" ++ "s1r1c1"),
          innerInvoked := false, cacheWrite := none }
    ∧ cachingGetEventMembers "s1r1c1" "42" (fun _ => CacheGetOutcome.missing) (.obj [])
      = { result := JSVal.obj [], innerInvoked := true,
          cacheWrite := if jsTruthy (JSVal.obj [])
            then some ("Goldcast|EventMembers|" ++ "42" ++ "|" ++ "s1r1c1", JSVal.obj [])
            else none } :=
  ⟨(c9_caching_lookups "s1r1c1" "42" (fun _ => CacheGetOutcome.found "[1]") (.obj [])).1 rfl,
   (c9_caching_lookups "s1r1c1" "42" (fun _ => CacheGetOutcome.missing)
     (.obj [])).2.2.2.2.2 rfl⟩

end Goldcast
